import Mathlib

/-!
Shallow embedding of the resumable S3 batch-transfer pipeline of
`scripts/s3_batcher.py` and `scripts/progress.py`: the durable batcher state
(continuation token + completion flag), the progress ledger, the listing-page
filter, the batch-download loop, the upload loop and the object counter.

Python strings are modelled as `List Char` (a Python `str` is a sequence of
characters); `str.lower` is `Char.toLower` mapped over the list, `str.endswith`
is `List.isSuffixOf`, `str.startswith` is `List.isPrefixOf`. Machine-level
concerns (actual file IO, the boto3 client, logging) are not part of the state
these theorems speak about; individual downloads and uploads are modelled by a
success oracle on keys, and the paginated listing by the list of responses the
remote store serves, in order.
-/

namespace S3B

/-- `str.lower()` on a key (`Char.toLower` lowers the Latin letters, which is
what the repository's keys consist of). -/
def strLower (s : List Char) : List Char :=
  s.map Char.toLower

/-- One entry of a listing response: `obj["Key"]` and `obj["Size"]`. -/
structure S3Object where
  key : List Char
  size : Nat
  deriving Repr, DecidableEq

/-- One `list_objects_v2` response: `resp.get("Contents", [])` and
`resp.get("NextContinuationToken", None)`. -/
structure ListResponse where
  contents : List S3Object
  nextToken : Option (List Char)
  deriving Repr, DecidableEq

/-- Python truthiness of an optional string: `None` and `""` are falsy. -/
def pyFalsy : Option (List Char) → Bool
  | none => true
  | some s => s.isEmpty

/-- `BatcherState`: the continuation token and the completion flag
(`s3_batcher.py`, class `BatcherState`). -/
structure BatcherState where
  token : Option (List Char)
  completed : Bool
  deriving Repr, DecidableEq

/-- What `BatcherState.save` writes through `to_dict`: both fields. -/
structure StoredState where
  token : Option (List Char)
  completed : Bool
  deriving Repr, DecidableEq

/-- `BatcherState.to_dict`: the dictionary `save` persists. -/
def BatcherState.to_dict (s : BatcherState) : StoredState :=
  { token := s.token, completed := s.completed }

/-- `BatcherState.__init__` followed by `load`: the fields start as
`token = None`, `completed = False`; when the state file exists, `load` reads
only `data.get("token", None)` — `completed` keeps its constructor value. -/
def BatcherState.construct (file : Option StoredState) : BatcherState :=
  { token := match file with
      | some d => d.token
      | none => none,
    completed := false }

/-- `BatcherState.token_from_response`: store the response's continuation token;
when it is falsy (absent or empty) set `completed = True`. `completed` is never
reset to `False` by this method. -/
def BatcherState.token_from_response (s : BatcherState) (resp : ListResponse) :
    BatcherState :=
  { token := resp.nextToken, completed := s.completed || pyFalsy resp.nextToken }

/-- `S3Batcher.empty_batch`: token cleared and `completed = True`, run on a page
whose `Contents` list is empty. -/
def empty_batch (_s : BatcherState) : BatcherState :=
  { token := none, completed := true }

/-- `S3Batcher.has_next` (non-dry-run path): `not self.state.completed`. -/
def has_next (s : BatcherState) : Bool :=
  !s.completed

/-- The effect one listing page has on `BatcherState` inside `next_batch`'s
loop: `token_from_response`, then `empty_batch` when the page's `Contents` list
is empty. -/
def consume_page (s : BatcherState) (resp : ListResponse) : BatcherState :=
  let s1 := s.token_from_response resp
  if resp.contents.isEmpty then empty_batch s1 else s1

/-- The ledger (`ProgressInfo` of `scripts/progress.py`), omitting the file
path and the logger, which do not touch the tracked fields. -/
structure ProgressInfo where
  downloaded_keys : List (List Char)
  uploaded_keys : List (List Char)
  total_expected : Nat
  total_chunks : Nat
  batch_count : Nat
  before_process_count : Nat
  after_process_count : Nat
  deriving Repr, DecidableEq

/-- `ProgressInfo.__init__`. -/
def ProgressInfo.init (total_expected : Nat) : ProgressInfo :=
  { downloaded_keys := []
    uploaded_keys := []
    total_expected := total_expected
    total_chunks := 0
    batch_count := 0
    before_process_count := 0
    after_process_count := 0 }

/-- `ProgressInfo.append_dowloaded` (spelling as in the source). -/
def ProgressInfo.append_dowloaded (p : ProgressInfo) (key : List Char) : ProgressInfo :=
  { p with downloaded_keys := p.downloaded_keys ++ [key] }

/-- `ProgressInfo.append_uploaded`: append the key and bump `total_chunks`. -/
def ProgressInfo.append_uploaded (p : ProgressInfo) (key : List Char) : ProgressInfo :=
  { p with uploaded_keys := p.uploaded_keys ++ [key]
           total_chunks := p.total_chunks + 1 }

/-- `ProgressInfo.increment_progress`: bump `batch_count` and snapshot the two
list lengths. -/
def ProgressInfo.increment_progress (p : ProgressInfo) : ProgressInfo :=
  { p with batch_count := p.batch_count + 1
           before_process_count := p.downloaded_keys.length
           after_process_count := p.uploaded_keys.length }

/-- The batcher configuration the filter and the download loop read. -/
structure BatcherConfig where
  batch_size : Nat
  include_ext : List (List Char)
  ignore_prefixes : List (List Char)

/-- The filter of `download_batch_files` (re-applied verbatim by `counter`):
skip the entry unless the lowercased key ends with one of `include_ext` (an
empty tuple disables that test — the Python guard is
`if self.include_ext and not key.lower().endswith(self.include_ext)`), and skip
keys that start with one of `ignore_prefixes`. -/
def admissible (include_ext ignore_prefixes : List (List Char))
    (key : List Char) : Bool :=
  (include_ext.isEmpty || include_ext.any (fun e => e.isSuffixOf (strLower key)))
    && !(ignore_prefixes.any (fun p => p.isPrefixOf key))

/-- Admissibility as the spec's sentence in §4.2 states it: the key's lowercased
suffix matches one of the configured extensions AND the key does not start with
any reserved prefix. (Stated from the spec's words, to be compared with
`admissible`, which is translated from the code.) -/
def admissible_spec (include_ext ignore_prefixes : List (List Char))
    (key : List Char) : Bool :=
  include_ext.any (fun e => e.isSuffixOf (strLower key))
    && !(ignore_prefixes.any (fun p => p.isPrefixOf key))

/-- `self.count` together with the ledger: the mutable state
`download_batch_files` threads. -/
structure DownloadState where
  count : Nat
  progress : ProgressInfo
  deriving Repr, DecidableEq

/-- The per-file loop of `download_batch_files`: try each chosen object; on
success bump `self.count`, the returned `downloaded_count` and the ledger
(`append_dowloaded`); on failure log the error and continue with the next
object. `dl key` tells whether `client.download_file` succeeds on `key`. -/
def dl_loop (dl : List Char → Bool) :
    List S3Object → Nat → DownloadState → Nat × DownloadState
  | [], downloaded, st => (downloaded, st)
  | o :: rest, downloaded, st =>
    if dl o.key then
      dl_loop dl rest (downloaded + 1)
        { count := st.count + 1, progress := st.progress.append_dowloaded o.key }
    else
      dl_loop dl rest downloaded st

/-- `S3Batcher.download_batch_files`: filter the page, cap at the remaining
batch budget (`min(len(valid_files), self.batch_size - self.count)`), then run
the per-file download loop. Returns `downloaded_count` and the new state. -/
def download_batch_files (cfg : BatcherConfig) (dl : List Char → Bool)
    (batch : List S3Object) (st : DownloadState) : Nat × DownloadState :=
  let valid_files := batch.filter
    (fun o => admissible cfg.include_ext cfg.ignore_prefixes o.key)
  let files_to_download := min valid_files.length (cfg.batch_size - st.count)
  dl_loop dl (valid_files.take files_to_download) 0 st

/-- The `while` loop of `S3Batcher.next_batch`, driven by the successive
listing responses the store serves: while `count < batch_size` and not
completed, take the next response, update the state from its token, stop on an
empty `Contents` list (`empty_batch`), otherwise download; `continue` when
nothing was downloaded, stop when the count fills the batch or the page carried
fewer than 1000 entries. -/
def next_batch_loop (cfg : BatcherConfig) (dl : List Char → Bool) :
    List ListResponse → BatcherState → DownloadState → BatcherState × DownloadState
  | [], s, st => (s, st)
  | resp :: rest, s, st =>
    if st.count < cfg.batch_size ∧ s.completed = false then
      let s1 := consume_page s resp
      if resp.contents.isEmpty then
        (s1, st)
      else
        let r := download_batch_files cfg dl resp.contents st
        if r.1 = 0 then
          next_batch_loop cfg dl rest s1 r.2
        else if cfg.batch_size ≤ r.2.count ∨ resp.contents.length < 1000 then
          (s1, r.2)
        else
          next_batch_loop cfg dl rest s1 r.2
    else (s, st)

/-- `S3Batcher.next_batch` (non-dry-run): `self.count = 0`, staging cleared
(not part of this state), the ledger reloaded (the given `p`), then the
download loop over the listing responses; `state.save()` afterwards does not
change the in-memory state. -/
def next_batch (cfg : BatcherConfig) (dl : List Char → Bool)
    (pages : List ListResponse) (s : BatcherState) (p : ProgressInfo) :
    BatcherState × DownloadState :=
  next_batch_loop cfg dl pages s { count := 0, progress := p }

/-- What `S3Batcher.upload` leaves behind: the ledger, the keys a push was
attempted for (in order), and the filenames whose push failed. -/
structure UploadResult where
  progress : ProgressInfo
  attempted : List (List Char)
  failed : List (List Char)
  deriving Repr, DecidableEq

/-- The per-file loop of `S3Batcher.upload`: each wave file is pushed under
`f"{self.processed_prefix}/{audio_path.name}"`; on success `append_uploaded`,
on failure the name joins `failed_uploads` and the loop continues. `success
name` tells whether `client.upload_file` succeeds on that file. -/
def upload_loop (success : List Char → Bool) (pfx : List Char) :
    List (List Char) → UploadResult → UploadResult
  | [], acc => acc
  | name :: rest, acc =>
    let key := pfx ++ '/' :: name
    if success name then
      upload_loop success pfx rest
        { progress := acc.progress.append_uploaded key
          attempted := acc.attempted ++ [key]
          failed := acc.failed }
    else
      upload_loop success pfx rest
        { progress := acc.progress
          attempted := acc.attempted ++ [key]
          failed := acc.failed ++ [name] }

/-- `S3Batcher.upload` (non-dry-run): `wave_paths = upload_from.glob("*.wav")`;
with no wave files it warns and returns at once (before the progress-tracking
block); otherwise it runs the push loop and then `increment_progress` (and
`progress.save()`, which does not change the in-memory ledger). `outbound` is
the list of file names in the outbound staging directory. -/
def upload (outbound : List (List Char)) (success : List Char → Bool)
    (pfx : List Char) (p : ProgressInfo) : UploadResult :=
  let wave_paths := outbound.filter (fun n => ".wav".data.isSuffixOf n)
  if wave_paths.isEmpty then
    { progress := p, attempted := [], failed := [] }
  else
    let r := upload_loop success pfx wave_paths
      { progress := p, attempted := [], failed := [] }
    { r with progress := r.progress.increment_progress }

/-- The pagination `S3Batcher.counter` runs over, page by page: `Except.error`
marks the point at which the listing raises. -/
abbrev PageResult := Except Unit (List S3Object)

/-- The `try` body of `S3Batcher.counter`: add up the admissible entries of
each page; when the iteration raises, the `except` arm returns 0 (the total
accumulated so far is discarded and no exception reaches the caller). -/
def counter_go (include_ext ignore_prefixes : List (List Char)) :
    List PageResult → Nat → Nat
  | [], total => total
  | Except.error _ :: _, _ => 0
  | Except.ok contents :: rest, total =>
    counter_go include_ext ignore_prefixes rest
      (total + (contents.filter
        (fun o => admissible include_ext ignore_prefixes o.key)).length)

/-- `S3Batcher.counter` (no prefix argument, as `__init__` calls it): the
paginated count starting from `total = 0`. -/
def counter (include_ext ignore_prefixes : List (List Char))
    (pages : List PageResult) : Nat :=
  counter_go include_ext ignore_prefixes pages 0

/-- The three mutating ledger operations of `ProgressInfo`. -/
inductive LedgerOp where
  | down : List Char → LedgerOp
  | up : List Char → LedgerOp
  | inc : LedgerOp

/-- Run one ledger operation. -/
def applyOp (p : ProgressInfo) : LedgerOp → ProgressInfo
  | LedgerOp.down k => p.append_dowloaded k
  | LedgerOp.up k => p.append_uploaded k
  | LedgerOp.inc => p.increment_progress

/-- Run a sequence of ledger operations, oldest first. -/
def applyOps (p : ProgressInfo) (ops : List LedgerOp) : ProgressInfo :=
  ops.foldl applyOp p

/-- The batch configuration of the spec's §8 examples: `batch_size = 2`,
extensions `{.wav}`, reserved prefix `out/`. -/
def exCfg : BatcherConfig :=
  { batch_size := 2, include_ext := [".wav".data], ignore_prefixes := ["out/".data] }

/-- A ledger that already records `in/a.wav` as downloaded. -/
def exLedger : ProgressInfo :=
  { ProgressInfo.init 1 with downloaded_keys := ["in/a.wav".data] }

/-- A two-page listing: the first page carries one admissible entry and a
continuation token (and fewer than 1000 entries); the second carries another
admissible entry and no token. -/
def exPages : List ListResponse :=
  [{ contents := [{ key := "in/1.wav".data, size := 0 }], nextToken := some "t".data },
   { contents := [{ key := "in/2.wav".data, size := 0 }], nextToken := none }]

theorem applyOp_chunks (p : ProgressInfo) (op : LedgerOp)
    (h : p.total_chunks = p.uploaded_keys.length) :
    (applyOp p op).total_chunks = (applyOp p op).uploaded_keys.length := by
  cases op <;>
    simp [applyOp, ProgressInfo.append_dowloaded, ProgressInfo.append_uploaded,
      ProgressInfo.increment_progress, h]

theorem applyOps_chunks (p : ProgressInfo) (ops : List LedgerOp)
    (h : p.total_chunks = p.uploaded_keys.length) :
    (applyOps p ops).total_chunks = (applyOps p ops).uploaded_keys.length := by
  induction ops generalizing p with
  | nil => simpa [applyOps] using h
  | cons op rest ih =>
    simpa [applyOps] using ih (applyOp p op) (applyOp_chunks p op h)

/-- C10: starting from a fresh `ProgressInfo`, every sequence of the three
mutating operations (`append_dowloaded`, `append_uploaded`,
`increment_progress`) preserves `total_chunks == len(uploaded_keys)`:
`append_uploaded` is the only operation changing either, and changes both
together. -/
theorem C10_chunks_eq_uploads (t : Nat) (ops : List LedgerOp) :
    (applyOps (ProgressInfo.init t) ops).total_chunks
      = (applyOps (ProgressInfo.init t) ops).uploaded_keys.length :=
  applyOps_chunks _ _ (by simp [ProgressInfo.init])

/-- C1: the persisted completion flag does not survive a restart. Before the
restart the exhausted state (`token = None`, `completed = True`, exactly what
`save` writes after exhaustion) answers `has_next() = False`; a freshly
constructed batcher that reloads that same stored dictionary answers
`has_next() = True`, because `BatcherState.load` reads only `token` and leaves
`completed` at its constructor value `False` — although `to_dict`/`save`
persists the flag. -/
theorem C1_completed_not_reloaded :
    has_next { token := none, completed := true } = false
      ∧ (BatcherState.to_dict { token := none, completed := true }).completed = true
      ∧ has_next (BatcherState.construct (some (BatcherState.to_dict
          { token := none, completed := true }))) = true := by
  refine ⟨rfl, rfl, rfl⟩

/-- C3 counterexample: a listing page with an empty `Contents` list but a
non-null (truthy) continuation token leaves `completed = True`, not `False` as
the claim requires: `next_batch` runs `empty_batch` on any page whose entry
list is empty, token or not. -/
theorem C3_counterexample :
    pyFalsy (some "t".data) = false
      ∧ (consume_page { token := none, completed := false }
          { contents := [], nextToken := some "t".data }).completed = true := by
  refine ⟨rfl, rfl⟩

/-- C3 (amended): after consuming one listing page from a not-yet-completed
state, `completed = True` iff the page returned no (or an empty) continuation
token OR the page's `Contents` list was empty (the `empty_batch` branch). -/
theorem C3_completed_iff (s : BatcherState) (resp : ListResponse)
    (h : s.completed = false) :
    ((consume_page s resp).completed = true
      ↔ (pyFalsy resp.nextToken = true ∨ resp.contents.isEmpty = true)) := by
  cases he : resp.contents.isEmpty <;>
    simp [consume_page, empty_batch, BatcherState.token_from_response, h, he]

/-- Witness for C3: the amended invariant evaluated on the concrete exhaustion
page (no token, no contents). -/
theorem C3_witness :
    ({ token := none, completed := false } : BatcherState).completed = false
      ∧ ((consume_page { token := none, completed := false }
            { contents := [], nextToken := none }).completed = true
          ↔ (pyFalsy (none : Option (List Char)) = true
              ∨ ([] : List S3Object).isEmpty = true)) :=
  ⟨rfl, C3_completed_iff _ _ rfl⟩

/-- C4 counterexample: `upload()` on an empty outbound directory leaves
`batch_count` at 0 — it does not advance it to 1, because the empty-`wave_paths`
branch returns from `upload` before the progress-tracking block runs. -/
theorem C4_counterexample :
    (ProgressInfo.init 5).batch_count = 0
      ∧ (upload [] (fun _ => true) "out".data (ProgressInfo.init 5)).progress.batch_count
          = 0 := by
  refine ⟨rfl, rfl⟩

/-- C4 (amended): `upload()` with an empty outbound directory is a complete
no-op that does not raise: it pushes nothing, attempts nothing, and returns
early, leaving the ledger — `batch_count` included — unchanged. -/
theorem C4_empty_upload_returns_early (success : List Char → Bool)
    (pfx : List Char) (p : ProgressInfo) :
    upload [] success pfx p = { progress := p, attempted := [], failed := [] } :=
  rfl

/-- C7 counterexample: with an empty configured-extension list the code admits
a key no extension matches (`if self.include_ext and ...` skips the suffix test
entirely), while the claimed characterisation — lowercased suffix matches one
of the configured extensions — rejects it. -/
theorem C7_counterexample :
    admissible [] ["out/".data] "in/a.wav".data = true
      ∧ admissible_spec [] ["out/".data] "in/a.wav".data = false := by
  refine ⟨by decide, by decide⟩

/-- C7 (amended): whenever at least one extension is configured, an entry is
admitted iff its key's lowercased suffix matches a configured extension and the
key starts with no reserved prefix (with an empty extension list the suffix
test is disabled and every suffix passes); in particular, with extensions
`{.wav}` and reserved prefix `out/`, `out/a.wav` is rejected, `in/a.wav` is
accepted and `in/a.txt` is rejected. -/
theorem C7_admissible_characterization :
    (∀ include_ext ignore_prefixes key, include_ext ≠ [] →
        admissible include_ext ignore_prefixes key
          = admissible_spec include_ext ignore_prefixes key)
      ∧ admissible [".wav".data] ["out/".data] "out/a.wav".data = false
      ∧ admissible [".wav".data] ["out/".data] "in/a.wav".data = true
      ∧ admissible [".wav".data] ["out/".data] "in/a.txt".data = false := by
  refine ⟨?_, by decide, by decide, by decide⟩
  intro exts pfxs key h
  cases exts with
  | nil => exact absurd rfl h
  | cons e es => simp [admissible, admissible_spec]

/-- Witness for C7: the characterisation applied at the concrete nonempty
extension list `[.wav]`. -/
theorem C7_witness :
    ([".wav".data] : List (List Char)) ≠ []
      ∧ admissible [".wav".data] ["out/".data] "in/b.wav".data
          = admissible_spec [".wav".data] ["out/".data] "in/b.wav".data :=
  ⟨by decide, C7_admissible_characterization.1 _ _ _ (by decide)⟩

theorem dl_loop_downloaded_keys (dl : List Char → Bool) (l : List S3Object)
    (d : Nat) (st : DownloadState) :
    ((dl_loop dl l d st).2).progress.downloaded_keys
      = st.progress.downloaded_keys
        ++ (l.filter (fun o => dl o.key)).map S3Object.key := by
  induction l generalizing d st with
  | nil => simp [dl_loop]
  | cons o rest ih =>
    by_cases h : dl o.key <;>
      simp [dl_loop, h, ih, ProgressInfo.append_dowloaded]

theorem dl_loop_count (dl : List Char → Bool) (l : List S3Object)
    (d : Nat) (st : DownloadState) :
    ((dl_loop dl l d st).2).count
      = st.count + (l.filter (fun o => dl o.key)).length := by
  induction l generalizing d st with
  | nil => simp [dl_loop]
  | cons o rest ih =>
    by_cases h : dl o.key <;> (simp [dl_loop, h, ih]; try omega)

/-- C2 counterexample: a page entry whose key the ledger already records in
`downloaded_keys` is fetched again (`downloaded_count = 1`) and its key is
appended a second time — `download_batch_files` never consults the ledger. -/
theorem C2_counterexample :
    (download_batch_files exCfg (fun _ => true)
        [{ key := "in/a.wav".data, size := 0 }]
        { count := 0, progress := exLedger }).1 = 1
      ∧ (download_batch_files exCfg (fun _ => true)
          [{ key := "in/a.wav".data, size := 0 }]
          { count := 0, progress := exLedger }).2.progress.downloaded_keys
        = ["in/a.wav".data, "in/a.wav".data] := by
  refine ⟨by decide, by decide⟩

/-- C2 (amended): batch acquisition does not consult `downloaded_keys`: the
entries fetched are exactly the first `min(len(valid), batch_size - count)`
admissible entries of the page, whether or not their keys are already recorded,
and each key whose fetch succeeds is appended to `downloaded_keys` again. -/
theorem C2_download_ignores_ledger (cfg : BatcherConfig) (dl : List Char → Bool)
    (batch : List S3Object) (st : DownloadState) :
    ((download_batch_files cfg dl batch st).2).progress.downloaded_keys
      = st.progress.downloaded_keys
        ++ ((((batch.filter
              (fun o => admissible cfg.include_ext cfg.ignore_prefixes o.key)).take
            (min (batch.filter
                (fun o => admissible cfg.include_ext cfg.ignore_prefixes o.key)).length
              (cfg.batch_size - st.count))).filter
            (fun o => dl o.key)).map S3Object.key) := by
  simp [download_batch_files, dl_loop_downloaded_keys]

theorem download_batch_files_count_le (cfg : BatcherConfig)
    (dl : List Char → Bool) (batch : List S3Object) (st : DownloadState)
    (h : st.count ≤ cfg.batch_size) :
    ((download_batch_files cfg dl batch st).2).count ≤ cfg.batch_size := by
  simp only [download_batch_files]
  rw [dl_loop_count]
  have h1 := List.length_filter_le (fun o => dl o.key)
    ((batch.filter
        (fun o => admissible cfg.include_ext cfg.ignore_prefixes o.key)).take
      (min (batch.filter
          (fun o => admissible cfg.include_ext cfg.ignore_prefixes o.key)).length
        (cfg.batch_size - st.count)))
  have h2 := List.length_take_le
    (min (batch.filter
        (fun o => admissible cfg.include_ext cfg.ignore_prefixes o.key)).length
      (cfg.batch_size - st.count))
    (batch.filter (fun o => admissible cfg.include_ext cfg.ignore_prefixes o.key))
  have h3 := Nat.min_le_right (batch.filter
      (fun o => admissible cfg.include_ext cfg.ignore_prefixes o.key)).length
    (cfg.batch_size - st.count)
  omega

theorem next_batch_loop_count_le (cfg : BatcherConfig) (dl : List Char → Bool)
    (pages : List ListResponse) (s : BatcherState) (st : DownloadState)
    (h : st.count ≤ cfg.batch_size) :
    ((next_batch_loop cfg dl pages s st).2).count ≤ cfg.batch_size := by
  induction pages generalizing s st with
  | nil => simpa [next_batch_loop] using h
  | cons resp rest ih =>
    simp only [next_batch_loop]
    split_ifs with h1 h2 h3 h4
    · exact h
    · exact ih _ _ (download_batch_files_count_le _ _ _ _ h)
    · exact download_batch_files_count_le _ _ _ _ h
    · exact ih _ _ (download_batch_files_count_le _ _ _ _ h)
    · exact h

/-- C6: `next_batch()` never stages (successfully fetches into the inbound
directory) more than `batch_size` objects in one cycle, for every configuration
and every sequence of listing responses. -/
theorem C6_stage_at_most_batch_size (cfg : BatcherConfig) (dl : List Char → Bool)
    (pages : List ListResponse) (s : BatcherState) (p : ProgressInfo) :
    ((next_batch cfg dl pages s p).2).count ≤ cfg.batch_size :=
  next_batch_loop_count_le _ _ _ _ _ (Nat.zero_le _)

/-- C6 counterexample: with `batch_size = 2` the cycle stages only one object
although the namespace still holds another admissible, unstaged object
(`in/2.wav` on the second page): the loop breaks as soon as a page carries
fewer than 1000 entries, even with a continuation token outstanding. -/
theorem C6_counterexample :
    ((next_batch exCfg (fun _ => true) exPages
        { token := none, completed := false } (ProgressInfo.init 2)).2).count = 1
      ∧ 1 < exCfg.batch_size
      ∧ admissible exCfg.include_ext exCfg.ignore_prefixes "in/2.wav".data = true
      ∧ "in/2.wav".data ∉ ((next_batch exCfg (fun _ => true) exPages
          { token := none, completed := false }
          (ProgressInfo.init 2)).2).progress.downloaded_keys := by
  refine ⟨by decide, by decide, by decide, by decide⟩

theorem upload_loop_attempted (success : List Char → Bool) (pfx : List Char)
    (l : List (List Char)) (acc : UploadResult) :
    (upload_loop success pfx l acc).attempted
      = acc.attempted ++ l.map (fun n => pfx ++ '/' :: n) := by
  induction l generalizing acc with
  | nil => simp [upload_loop]
  | cons name rest ih =>
    by_cases h : success name <;> simp [upload_loop, h, ih]

theorem upload_loop_uploaded_keys (success : List Char → Bool) (pfx : List Char)
    (l : List (List Char)) (acc : UploadResult) :
    (upload_loop success pfx l acc).progress.uploaded_keys
      = acc.progress.uploaded_keys
        ++ (l.filter success).map (fun n => pfx ++ '/' :: n) := by
  induction l generalizing acc with
  | nil => simp [upload_loop]
  | cons name rest ih =>
    by_cases h : success name <;>
      simp [upload_loop, h, ih, ProgressInfo.append_uploaded]

theorem upload_loop_total_chunks (success : List Char → Bool) (pfx : List Char)
    (l : List (List Char)) (acc : UploadResult) :
    (upload_loop success pfx l acc).progress.total_chunks
      = acc.progress.total_chunks + (l.filter success).length := by
  induction l generalizing acc with
  | nil => simp [upload_loop]
  | cons name rest ih =>
    by_cases h : success name <;>
      (simp [upload_loop, h, ih, ProgressInfo.append_uploaded]; try omega)

/-- C5 counterexample: with outbound files `a.wav` and `b.txt`, only
`out/a.wav` is attempted — `b.txt` is silently excluded from the push, because
`upload` enumerates `upload_from.glob("*.wav")`, not every file. -/
theorem C5_counterexample :
    (upload ["a.wav".data, "b.txt".data] (fun _ => true) "out".data
        (ProgressInfo.init 2)).attempted = ["out/a.wav".data]
      ∧ "out/b.txt".data ∉ (upload ["a.wav".data, "b.txt".data] (fun _ => true)
          "out".data (ProgressInfo.init 2)).attempted := by
  refine ⟨by decide, by decide⟩

/-- C5 (amended): the publish step enumerates exactly the files of the outbound
staging directory that match `*.wav` and attempts to push each of them under
the key `processed_prefix + "/" + filename`; files not ending in `.wav` are
excluded from the push attempt. -/
theorem C5_attempts_exactly_wavs (outbound : List (List Char))
    (success : List Char → Bool) (pfx : List Char) (p : ProgressInfo) :
    (upload outbound success pfx p).attempted
      = (outbound.filter (fun n => ".wav".data.isSuffixOf n)).map
          (fun n => pfx ++ '/' :: n) := by
  unfold upload
  cases h : (outbound.filter (fun n => ".wav".data.isSuffixOf n)).isEmpty with
  | true =>
    have h0 : outbound.filter (fun n => ".wav".data.isSuffixOf n) = [] :=
      List.isEmpty_iff.mp h
    simp [h0]
  | false => simp [h, upload_loop_attempted]

/-- C8: in the publish loop a failed push does not abort the loop — every wave
file is still attempted — and `uploaded_keys` gains one entry and
`total_chunks` is incremented exactly once per successful push and never for a
failed one; consequently `total_chunks` never decreases across `upload()`. -/
theorem C8_upload_accounting (outbound : List (List Char))
    (success : List Char → Bool) (pfx : List Char) (p : ProgressInfo) :
    (upload outbound success pfx p).attempted
        = (outbound.filter (fun n => ".wav".data.isSuffixOf n)).map
            (fun n => pfx ++ '/' :: n)
      ∧ (upload outbound success pfx p).progress.uploaded_keys
        = p.uploaded_keys
          ++ (((outbound.filter (fun n => ".wav".data.isSuffixOf n)).filter
              success).map (fun n => pfx ++ '/' :: n))
      ∧ (upload outbound success pfx p).progress.total_chunks
        = p.total_chunks
          + ((outbound.filter (fun n => ".wav".data.isSuffixOf n)).filter
              success).length
      ∧ p.total_chunks ≤ (upload outbound success pfx p).progress.total_chunks := by
  have key : (upload outbound success pfx p).attempted
        = (outbound.filter (fun n => ".wav".data.isSuffixOf n)).map
            (fun n => pfx ++ '/' :: n)
      ∧ (upload outbound success pfx p).progress.uploaded_keys
        = p.uploaded_keys
          ++ (((outbound.filter (fun n => ".wav".data.isSuffixOf n)).filter
              success).map (fun n => pfx ++ '/' :: n))
      ∧ (upload outbound success pfx p).progress.total_chunks
        = p.total_chunks
          + ((outbound.filter (fun n => ".wav".data.isSuffixOf n)).filter
              success).length := by
    unfold upload
    cases h : (outbound.filter (fun n => ".wav".data.isSuffixOf n)).isEmpty with
    | true =>
      have h0 : outbound.filter (fun n => ".wav".data.isSuffixOf n) = [] :=
        List.isEmpty_iff.mp h
      simp [h0]
    | false =>
      simp [h, upload_loop_attempted, upload_loop_uploaded_keys,
        upload_loop_total_chunks, ProgressInfo.increment_progress]
  exact ⟨key.1, key.2.1, key.2.2, by omega⟩

theorem counter_go_error (exts pfxs : List (List Char))
    (pre : List (List S3Object)) (rest : List PageResult) (t : Nat) :
    counter_go exts pfxs (pre.map Except.ok ++ Except.error () :: rest) t = 0 := by
  induction pre generalizing t with
  | nil => rfl
  | cons c cs ih => simpa [counter_go] using ih _

/-- C9: when the pagination raises at any point, `counter` swallows the
exception and returns 0 (discarding whatever it had counted), so the batcher's
`total` — and `total_expected` of a fresh ledger built from it — can be 0 even
though an admissible object (here `in/a.wav`) exists in the namespace; no
listing exception reaches the caller. -/
theorem C9_counter_swallows :
    (∀ (include_ext ignore_prefixes : List (List Char))
        (pre : List (List S3Object)) (rest : List PageResult),
        counter include_ext ignore_prefixes
          (pre.map Except.ok ++ Except.error () :: rest) = 0)
      ∧ counter [".wav".data] ["out/".data]
          [Except.ok [{ key := "in/a.wav".data, size := 0 }], Except.error ()] = 0
      ∧ admissible [".wav".data] ["out/".data] "in/a.wav".data = true
      ∧ (ProgressInfo.init (counter [".wav".data] ["out/".data]
          [Except.ok [{ key := "in/a.wav".data, size := 0 }],
            Except.error ()])).total_expected = 0 := by
  refine ⟨?_, by decide, by decide, by decide⟩
  intro exts pfxs pre rest
  exact counter_go_error exts pfxs pre rest 0

end S3B
